import Mathlib

/-!
Verification of the mkv-to-mp4 converter's stream-selection, command-synthesis,
progress-parsing, verification, batch, and quality-resolution logic.

Python strings are embedded as `List Char` (written `Str`); optional tag values
as `Option Str`; Python floats as exact rationals `ℚ`; fallible code as `Except`.
All definitions are transcribed from `src/config.py`, `src/utils.py` and
`src/converter.py`.
-/

abbrev Str := List Char

/-! ## config.py -/

def SUPPORTED_FORMATS : List Str := [".mkv".data, ".avi".data]

def VIDEO_CODEC : Str := "libx264".data

def VIDEO_PRESET : Str := "medium".data

def VIDEO_CRF : Nat := 23

def PIXEL_FORMAT : Str := "yuv420p".data

def AUDIO_CODEC : Str := "aac".data

def AUDIO_BITRATE : Str := "192k".data

def AUDIO_CHANNELS : Nat := 2

def MOVFLAGS : Str := "+faststart".data

def FRENCH_LANGUAGE_CODES : List Str := ["fra".data, "fre".data, "fr".data, "french".data]

def QUALITY_PRESETS : List (Str × Nat × Str) :=
  [("high".data, 18, "slow".data),
   ("balanced".data, 23, "medium".data),
   ("compressed".data, 28, "fast".data)]

def GPU_ENCODER : Str := "h264_videotoolbox".data

def SUBTITLE_CODEC : Str := "mov_text".data

def OUTPUT_SUFFIX : Str := "_converted".data

/-! ## String helpers (Python built-ins used by the source) -/

/-- Python `str.lower()` (ASCII model). -/
def pyLower (s : Str) : Str := s.map Char.toLower

/-- Python `needle in hay` substring test. -/
def strContains (needle : Str) : Str → Bool
  | [] => needle.isEmpty
  | c :: t => needle.isPrefixOf (c :: t) || strContains needle t

/-- Python `str(n)` for a natural number: decimal digit characters. -/
def natCharsCore : Nat → Nat → List Char → List Char
  | 0, _, acc => acc
  | fuel + 1, n, acc =>
    let acc2 := Nat.digitChar (n % 10) :: acc
    if n < 10 then acc2 else natCharsCore fuel (n / 10) acc2

def natChars (n : Nat) : Str := natCharsCore (n + 1) n []

/-- Python `int(s)` on a digit string. -/
def digitsToNat (s : Str) : Nat := s.foldl (fun acc c => acc * 10 + (c.toNat - '0'.toNat)) 0

/-- `pathlib.Path(name).suffix`: the extension from the last dot, empty when the
last dot is the first or last character, or there is no dot. Helper returning
the tail of `name` starting at its last dot. -/
def lastDotTail : Str → Option Str
  | [] => none
  | c :: t =>
    match lastDotTail t with
    | some r => some r
    | none => if c == '.' then some (c :: t) else none

def pySuffix (name : Str) : Str :=
  match lastDotTail name with
  | some s => if s.length == 1 || s.length == name.length then [] else s
  | none => []

/-- `pathlib.Path(name).stem`: the name with its suffix removed. -/
def pyStem (name : Str) : Str := name.take (name.length - (pySuffix name).length)

/-! ## Stream model (ffprobe stream entries: codec_type plus optional tags) -/

structure FStream where
  codec_type : Str
  language : Option Str
  title : Option Str
deriving DecidableEq

def emptyStream : FStream := ⟨[], none, none⟩

/-- `tags.get('language', '').lower()` for a stream. -/
def langTag (s : FStream) : Str := pyLower (s.language.getD [])

/-- `tags.get('title', '').lower()` for a stream. -/
def titleTag (s : FStream) : Str := pyLower (s.title.getD [])

/-- `any(fr_code in language for fr_code in config.FRENCH_LANGUAGE_CODES)`. -/
def matchesFrenchLang (s : FStream) : Bool :=
  FRENCH_LANGUAGE_CODES.any (fun code => strContains code (langTag s))

/-- `any(fr_code in title for fr_code in config.FRENCH_LANGUAGE_CODES)`. -/
def matchesFrenchTitle (s : FStream) : Bool :=
  FRENCH_LANGUAGE_CODES.any (fun code => strContains code (titleTag s))

/-- A stream matches when its language tag or (failing that) its title tag
contains a French alias. -/
def frMatch (s : FStream) : Bool := matchesFrenchLang s || matchesFrenchTitle s

/-! ## utils.py: stream classification, French-stream finders, audio mapping -/

/-- `utils.get_streams_info`: partition probe streams by codec_type. -/
def get_streams_info (streams : List FStream) :
    List FStream × List FStream × List FStream :=
  (streams.filter (fun s => s.codec_type == "video".data),
   streams.filter (fun s => s.codec_type == "audio".data),
   streams.filter (fun s => s.codec_type == "subtitle".data))

/-- The `for idx, stream in enumerate(...)` loop shared verbatim by
`find_french_audio_stream` and `find_french_subtitle_stream`: per stream,
check the language tag, then the title tag, then move to the next stream. -/
def findFrenchAux : Nat → List FStream → Option Nat
  | _, [] => none
  | idx, s :: rest =>
    if matchesFrenchLang s then some idx
    else if matchesFrenchTitle s then some idx
    else findFrenchAux (idx + 1) rest

def find_french_audio_stream (streams : List FStream) : Option Nat :=
  findFrenchAux 0 streams

def find_french_subtitle_stream (streams : List FStream) : Option Nat :=
  findFrenchAux 0 streams

/-- `utils.get_audio_mapping`. -/
def get_audio_mapping (audio_streams : List FStream) : List Nat :=
  if audio_streams.isEmpty then []
  else
    match find_french_audio_stream audio_streams with
    | none => List.range audio_streams.length
    | some p => p :: (List.range audio_streams.length).filter (fun i => i != p)

/-- The subtitle mapping built inline in `VideoConverter.build_ffmpeg_command`
(converter.py lines 112-120). -/
def get_subtitle_mapping (subtitle_streams : List FStream) : List Nat :=
  match find_french_subtitle_stream subtitle_streams with
  | some p => p :: (List.range subtitle_streams.length).filter (fun i => i != p)
  | none => List.range subtitle_streams.length

/-! ## converter.py: build_ffmpeg_command -/

/-- The `-map 0:a:{input_idx}` loop (converter.py lines 85-86). -/
def audioMapArgs (mapping : List Nat) : List Str :=
  mapping.flatMap (fun input_idx => ["-map".data, "0:a:".data ++ natChars input_idx])

/-- The audio metadata loop (converter.py lines 92-106): for each output
position, emit language and title metadata when the tags are nonempty,
keyed by the output index. -/
def audioMetadataArgs (audio_streams : List FStream) (mapping : List Nat) : List Str :=
  mapping.enum.flatMap (fun oi =>
    (if ((audio_streams.getD oi.2 emptyStream).language.getD []).isEmpty then []
     else ["-metadata:s:a:".data ++ natChars oi.1,
           "language=".data ++ (audio_streams.getD oi.2 emptyStream).language.getD []]) ++
    (if ((audio_streams.getD oi.2 emptyStream).title.getD []).isEmpty then []
     else ["-metadata:s:a:".data ++ natChars oi.1,
           "title=".data ++ (audio_streams.getD oi.2 emptyStream).title.getD []]))

/-- Converter.py lines 81-106: mapping of every audio stream in
`get_audio_mapping` order, default disposition on output track 0, then
per-track metadata. Empty when the audio group is empty. -/
def audioSection (audio_streams : List FStream) : List Str :=
  if audio_streams.isEmpty then []
  else
    audioMapArgs (get_audio_mapping audio_streams) ++
      ["-disposition:a:0".data, "default".data] ++
      audioMetadataArgs audio_streams (get_audio_mapping audio_streams)

/-- Converter.py lines 108-145: subtitle mapping, codec, default disposition
on output track 0, and per-track metadata, when subtitles are enabled and the
group is nonempty. -/
def subtitleSection (includeSubs : Bool) (subtitle_streams : List FStream) : List Str :=
  if includeSubs && !subtitle_streams.isEmpty then
    (get_subtitle_mapping subtitle_streams).enum.flatMap (fun oi =>
      ["-map".data, "0:s:".data ++ natChars oi.2, "-c:s".data, SUBTITLE_CODEC] ++
      (if oi.1 == 0 then ["-disposition:s:0".data, "default".data] else []) ++
      (if ((subtitle_streams.getD oi.2 emptyStream).language.getD []).isEmpty then []
       else ["-metadata:s:s:".data ++ natChars oi.1,
             "language=".data ++ (subtitle_streams.getD oi.2 emptyStream).language.getD []]) ++
      (if ((subtitle_streams.getD oi.2 emptyStream).title.getD []).isEmpty then []
       else ["-metadata:s:s:".data ++ natChars oi.1,
             "title=".data ++ (subtitle_streams.getD oi.2 emptyStream).title.getD []]))
  else []

/-- `VideoConverter.build_ffmpeg_command`, parametrized by the configuration
flags `USE_GPU_ACCELERATION` and `INCLUDE_SUBTITLES` and the converter's
crf/preset fields. -/
def build_ffmpeg_command (useGpu includeSubs : Bool) (crf : Nat) (preset : Str)
    (input_path output_path : Str) (streams : List FStream) : List Str :=
  ["ffmpeg".data, "-i".data, input_path] ++
  (if useGpu then ["-c:v".data, GPU_ENCODER]
   else ["-c:v".data, VIDEO_CODEC, "-preset".data, preset, "-crf".data, natChars crf]) ++
  ["-pix_fmt".data, PIXEL_FORMAT] ++
  ["-c:a".data, AUDIO_CODEC, "-b:a".data, AUDIO_BITRATE, "-ac".data, natChars AUDIO_CHANNELS] ++
  (if (get_streams_info streams).1.isEmpty then [] else ["-map".data, "0:v:0".data]) ++
  audioSection (get_streams_info streams).2.1 ++
  subtitleSection includeSubs (get_streams_info streams).2.2 ++
  ["-movflags".data, MOVFLAGS, "-map_metadata".data, "0".data, "-y".data] ++
  [output_path]

/-! ## converter.py: parse_progress

The regex searches are modelled as leftmost-position matchers over the
character list. `\d` is a decimal digit, `\s` whitespace; `+` is a greedy
nonempty run, which for these patterns coincides with maximal munch. All
numeric pieces are kept as naturals; `parse_progress` converts to ℚ. -/

def takeDigits (s : Str) : Str × Str := (s.takeWhile Char.isDigit, s.dropWhile Char.isDigit)

/-- Match `time=(\d+):(\d+):(\d+\.\d+)` at the head of `s`, returning
(hours, minutes, integer seconds, fraction digits value, fraction length). -/
def matchTimeAt (s : Str) : Option (Nat × Nat × Nat × Nat × Nat) :=
  if "time=".data.isPrefixOf s then
    let r0 := s.drop 5
    let h := takeDigits r0
    if h.1.isEmpty then none else
    match h.2 with
    | ':' :: r2 =>
      let m := takeDigits r2
      if m.1.isEmpty then none else
      match m.2 with
      | ':' :: r4 =>
        let si := takeDigits r4
        if si.1.isEmpty then none else
        match si.2 with
        | '.' :: r6 =>
          let f := takeDigits r6
          if f.1.isEmpty then none
          else some (digitsToNat h.1, digitsToNat m.1, digitsToNat si.1,
                     digitsToNat f.1, f.1.length)
        | _ => none
      | _ => none
    | _ => none
  else none

/-- Match `fps=\s*(\d+\.?\d*)` at the head of `s`:
(integer part, fraction digits value, fraction length). -/
def matchFpsAt (s : Str) : Option (Nat × Nat × Nat) :=
  if "fps=".data.isPrefixOf s then
    let r0 := (s.drop 4).dropWhile Char.isWhitespace
    let d := takeDigits r0
    if d.1.isEmpty then none else
    match d.2 with
    | '.' :: r2 =>
      let f := takeDigits r2
      some (digitsToNat d.1, digitsToNat f.1, f.1.length)
    | _ => some (digitsToNat d.1, 0, 0)
  else none

/-- Match `frame=\s*(\d+)` at the head of `s`. -/
def matchFrameAt (s : Str) : Option Nat :=
  if "frame=".data.isPrefixOf s then
    let r0 := (s.drop 6).dropWhile Char.isWhitespace
    let d := takeDigits r0
    if d.1.isEmpty then none else some (digitsToNat d.1)
  else none

/-- `re.search`: try the matcher at each position, leftmost success wins. -/
def searchWith (f : Str → Option α) : Str → Option α
  | [] => none
  | c :: t =>
    match f (c :: t) with
    | some r => some r
    | none => searchWith f t

def searchTime (line : Str) : Option (Nat × Nat × Nat × Nat × Nat) :=
  searchWith matchTimeAt line

def searchFps (line : Str) : Option (Nat × Nat × Nat) := searchWith matchFpsAt line

def searchFrame (line : Str) : Option Nat := searchWith matchFrameAt line

structure ProgressInfo where
  current_time : ℚ
  fps : ℚ
  frame : Nat
  percentage : ℚ
  eta : Option ℚ
deriving DecidableEq

/-- Value of a matched decimal group `ip.fp` (fl fraction digits) as a rational. -/
def decVal (ip fp fl : Nat) : ℚ := (ip : ℚ) + (fp : ℚ) / 10 ^ fl

/-- `float(fps_match.group(1)) if fps_match else 0`. -/
def fpsOf (line : Str) : ℚ :=
  match searchFps line with
  | some (ip, fp, l) => decVal ip fp l
  | none => 0

/-- `VideoConverter.parse_progress`. -/
def parse_progress (line : Str) (duration : Option ℚ) : Option ProgressInfo :=
  match searchTime line with
  | none => none
  | some (hh, mm, si, fn, fl) =>
    let current_time : ℚ := (hh : ℚ) * 3600 + (mm : ℚ) * 60 + decVal si fn fl
    let fps : ℚ := fpsOf line
    let frame : Nat := (searchFrame line).getD 0
    match duration with
    | some d =>
      if 0 < d then
        some { current_time := current_time, fps := fps, frame := frame,
               percentage := min 100 (current_time / d * 100),
               eta := if 0 < fps then some ((d - current_time) / fps) else none }
      else
        some { current_time := current_time, fps := fps, frame := frame,
               percentage := 0, eta := none }
    | none =>
      some { current_time := current_time, fps := fps, frame := frame,
             percentage := 0, eta := none }

/-! ## converter.py: the tail of convert_video (lines 296-326)

Models the code after the encoder exited with code 0: output-existence check,
the size-ratio division, and best-effort duration verification. A failed
re-probe of the output is `none`; a successful one carries the probed
duration option. Python's float truthiness makes a zero duration skip the
comparison. -/

inductive PyError where
  | zeroDivision
deriving DecidableEq

inductive VWarning where
  | durationMismatch
  | verifyFailed
deriving DecidableEq

def pyTruthy (x : Option ℚ) : Bool :=
  match x with
  | none => false
  | some v => v != 0

def convert_video_tail (outputExists : Bool) (input_size output_size : Nat)
    (duration : Option ℚ) (reprobe : Option (Option ℚ)) :
    Except PyError (Bool × List VWarning) :=
  if !outputExists then .ok (false, [])
  else if input_size = 0 then .error .zeroDivision
  else
    let warnings :=
      match reprobe with
      | none => [VWarning.verifyFailed]
      | some output_duration =>
        if pyTruthy output_duration && pyTruthy duration then
          match output_duration, duration with
          | some od, some d => if 1 < |od - d| then [VWarning.durationMismatch] else []
          | _, _ => []
        else []
    .ok (true, warnings)

/-! ## converter.py: convert_batch, with utils.list_files_in_directory and
utils.is_already_converted. Directories are modelled as name listings; the
per-file conversion is an oracle function. -/

def strLe : Str → Str → Bool
  | [], _ => true
  | _ :: _, [] => false
  | a :: as, b :: bs => if a == b then strLe as bs else decide (a < b)

def insertSorted (x : Str) : List Str → List Str
  | [] => [x]
  | y :: t => if strLe x y then x :: y :: t else y :: insertSorted x t

/-- Python `sorted` on file names (stable sort by code points). -/
def sortStr : List Str → List Str
  | [] => []
  | x :: t => insertSorted x (sortStr t)

/-- `utils.list_files_in_directory`: filter by lowercased extension, sorted. -/
def list_files_in_directory (listing : List Str) (extensions : List Str) : List Str :=
  sortStr (listing.filter (fun f => extensions.contains (pyLower (pySuffix f))))

/-- `utils.is_already_converted`: the derived output name exists in the
output directory listing. -/
def is_already_converted (input_name : Str) (outputListing : List Str) : Bool :=
  outputListing.contains (pyStem input_name ++ OUTPUT_SUFFIX ++ ".mp4".data)

structure BatchStats where
  total : Nat
  success : Nat
  failed : Nat
  skipped : Nat
deriving DecidableEq

/-- `VideoConverter.convert_batch`. -/
def convert_batch (inputListing outputListing : List Str) (skip_existing : Bool)
    (convert : Str → Bool) : BatchStats :=
  let files := list_files_in_directory inputListing SUPPORTED_FORMATS
  if files.isEmpty then ⟨0, 0, 0, 0⟩
  else
    files.foldl
      (fun stats file_path =>
        if skip_existing && is_already_converted file_path outputListing then
          { stats with skipped := stats.skipped + 1 }
        else if convert file_path then
          { stats with success := stats.success + 1 }
        else
          { stats with failed := stats.failed + 1 })
      ⟨files.length, 0, 0, 0⟩

/-! ## converter.py: main's quality resolution and VideoConverter.__init__ -/

/-- `main` lines 480-491: a named quality preset overrides the individually
supplied crf/preset; an unknown name raises KeyError (modelled as error). -/
def apply_quality (quality : Option Str) (crf0 : Option Nat) (preset0 : Option Str) :
    Except Unit (Option Nat × Option Str) :=
  match quality with
  | none => .ok (crf0, preset0)
  | some q =>
    match QUALITY_PRESETS.find? (fun e => e.1 == q) with
    | some e => .ok (some e.2.1, some e.2.2)
    | none => .error ()

/-- `VideoConverter.__init__`: fall back to config defaults when no value
was supplied. -/
def converter_init (crf0 : Option Nat) (preset0 : Option Str) : Nat × Str :=
  (crf0.getD VIDEO_CRF, preset0.getD VIDEO_PRESET)

/-- The crf/preset the converter ends up with for a given invocation. -/
def resolved_settings (quality : Option Str) (crf0 : Option Nat) (preset0 : Option Str) :
    Except Unit (Nat × Str) :=
  (apply_quality quality crf0 preset0).map (fun r => converter_init r.1 r.2)

/-! ## Helper lemmas -/

theorem findFrenchAux_cons (i : Nat) (s : FStream) (rest : List FStream) :
    findFrenchAux i (s :: rest) =
      if frMatch s then some i else findFrenchAux (i + 1) rest := by
  by_cases h1 : matchesFrenchLang s = true
  · simp [findFrenchAux, frMatch, h1]
  · by_cases h2 : matchesFrenchTitle s = true <;>
      simp [findFrenchAux, frMatch, h1, h2]

theorem findFrenchAux_none_iff (streams : List FStream) :
    ∀ i, findFrenchAux i streams = none ↔ ∀ s ∈ streams, frMatch s = false := by
  induction streams with
  | nil => intro i; simp [findFrenchAux]
  | cons s rest ih =>
    intro i
    rw [findFrenchAux_cons]
    by_cases hm : frMatch s
    · simp [hm]
    · simp only [Bool.not_eq_true] at hm
      simp [hm, ih (i + 1)]

theorem findFrenchAux_some_iff (streams : List FStream) :
    ∀ i p, findFrenchAux i streams = some p ↔
      ∃ j s, p = i + j ∧ streams.get? j = some s ∧ frMatch s = true ∧
        ∀ k t, k < j → streams.get? k = some t → frMatch t = false := by
  induction streams with
  | nil => intro i p; simp [findFrenchAux]
  | cons s rest ih =>
    intro i p
    rw [findFrenchAux_cons]
    by_cases hm : frMatch s
    · simp only [hm, if_pos]
      constructor
      · rintro ⟨rfl⟩
        exact ⟨0, s, by omega, rfl, hm, fun k t hk => absurd hk (by omega)⟩
      · rintro ⟨j, s', hp, hg, _, hmin⟩
        match j, hg with
        | 0, hg => simp_all
        | j + 1, hg => exact absurd hm (by simpa using hmin 0 s (by omega) rfl)
    · rw [if_neg (by simp [hm]), ih (i + 1) p]
      constructor
      · rintro ⟨j, s', hp, hg, hf, hmin⟩
        refine ⟨j + 1, s', by omega, by simpa using hg, hf, ?_⟩
        intro k t hk hg'
        match k, hg' with
        | 0, hg' => simp_all
        | k + 1, hg' => exact hmin k t (by omega) (by simpa using hg')
      · rintro ⟨j, s', hp, hg, hf, hmin⟩
        match j, hg with
        | 0, hg =>
          rw [List.get?_cons_zero, Option.some.injEq] at hg
          rw [← hg] at hf
          exact absurd hf (by simp [hm])
        | j + 1, hg =>
          refine ⟨j, s', by omega, by simpa using hg, hf, ?_⟩
          intro k t hk hg'
          exact hmin (k + 1) t (by omega) (by simpa using hg')

theorem findFrenchAux_lt (streams : List FStream) (p : Nat)
    (h : findFrenchAux 0 streams = some p) : p < streams.length := by
  rw [findFrenchAux_some_iff] at h
  obtain ⟨j, s, hp, hg, -, -⟩ := h
  obtain ⟨hlt, -⟩ := List.get?_eq_some.mp hg
  omega

theorem perm_cons_filter (l : List Nat) (p : Nat) (hnd : l.Nodup) (hmem : p ∈ l) :
    (p :: l.filter (fun i => i != p)).Perm l := by
  induction l with
  | nil => cases hmem
  | cons c t ih =>
    by_cases hpc : p = c
    · subst hpc
      have hnp : p ∉ t := (List.nodup_cons.mp hnd).1
      have hfilter : t.filter (fun i => i != p) = t :=
        List.filter_eq_self.mpr (fun x hx => by
          simp only [bne_iff_ne, ne_eq]
          rintro rfl; exact hnp hx)
      simp [hfilter]
    · have hmem' : p ∈ t := by
        rcases List.mem_cons.mp hmem with h | h
        · exact absurd h hpc
        · exact h
      have hct : (c :: t).filter (fun i => i != p) =
          c :: t.filter (fun i => i != p) := by
        simp [List.filter_cons, bne_iff_ne, Ne.symm, hpc]
      rw [hct]
      exact ((List.Perm.swap c p _).trans
        (List.Perm.cons c (ih (List.nodup_cons.mp hnd).2 hmem')))

theorem get_audio_mapping_perm (a : List FStream) :
    (get_audio_mapping a).Perm (List.range a.length) := by
  unfold get_audio_mapping
  by_cases he : a.isEmpty
  · rw [if_pos he]
    rw [List.isEmpty_iff] at he
    subst he; simp
  · rw [if_neg he]
    cases hf : find_french_audio_stream a with
    | none => exact List.Perm.refl _
    | some p =>
      have hp : p < a.length := findFrenchAux_lt a p hf
      exact perm_cons_filter _ p (List.nodup_range _) (List.mem_range.mpr hp)

theorem get_subtitle_mapping_perm (a : List FStream) :
    (get_subtitle_mapping a).Perm (List.range a.length) := by
  unfold get_subtitle_mapping
  cases hf : find_french_subtitle_stream a with
  | none => exact List.Perm.refl _
  | some p =>
    have hp : p < a.length := findFrenchAux_lt a p hf
    exact perm_cons_filter _ p (List.nodup_range _) (List.mem_range.mpr hp)

/-! ## Claim theorems -/

/-- C1: For every stream group of size N, the planned track order is a
permutation of 0..N-1; if no preferred-language stream is found it is the
identity permutation, and if one is found at position p it equals [p] followed
by all other indices in their original relative order — identically for the
audio and the subtitle group. -/
theorem track_order_spec (audio subs : List FStream) :
    (get_audio_mapping audio).Perm (List.range audio.length) ∧
    (get_subtitle_mapping subs).Perm (List.range subs.length) ∧
    (find_french_audio_stream audio = none →
      get_audio_mapping audio = List.range audio.length) ∧
    (∀ p, find_french_audio_stream audio = some p →
      get_audio_mapping audio =
        p :: (List.range audio.length).filter (fun i => i != p)) ∧
    (find_french_subtitle_stream subs = none →
      get_subtitle_mapping subs = List.range subs.length) ∧
    (∀ p, find_french_subtitle_stream subs = some p →
      get_subtitle_mapping subs =
        p :: (List.range subs.length).filter (fun i => i != p)) := by
  refine ⟨get_audio_mapping_perm audio, get_subtitle_mapping_perm subs, ?_, ?_, ?_, ?_⟩
  · intro h
    by_cases he : audio.isEmpty
    · rw [List.isEmpty_iff] at he; subst he; simp [get_audio_mapping]
    · simp [get_audio_mapping, he, h]
  · intro p h
    by_cases he : audio.isEmpty
    · rw [List.isEmpty_iff] at he; subst he
      simp [find_french_audio_stream, findFrenchAux] at h
    · simp [get_audio_mapping, he, h]
  · intro h; simp [get_subtitle_mapping, h]
  · intro p h; simp [get_subtitle_mapping, h]

theorem track_order_spec_witness :
    get_audio_mapping
      [⟨"audio".data, some "eng".data, none⟩, ⟨"audio".data, some "fra".data, none⟩] =
      [1, 0] := by
  have h := (track_order_spec
    [⟨"audio".data, some "eng".data, none⟩, ⟨"audio".data, some "fra".data, none⟩]
    []).2.2.2.1 1 (by decide)
  exact h.trans (by decide)

/-- C2: For every ordered stream group, the preferred-language finder scans
streams strictly sequentially and returns the index of the first stream whose
lowercased language tag contains a French alias, or failing that whose
lowercased title tag does (`frMatch`); any match on an earlier stream wins;
not-found on an empty group and when no stream matches; the audio and subtitle
finders are the same function of the group, hence deterministic. -/
theorem find_french_first_match (streams : List FStream) :
    find_french_audio_stream streams = find_french_subtitle_stream streams ∧
    (find_french_audio_stream streams = none ↔ ∀ s ∈ streams, frMatch s = false) ∧
    (∀ p, find_french_audio_stream streams = some p ↔
      ∃ s, streams.get? p = some s ∧ frMatch s = true ∧
        ∀ k t, k < p → streams.get? k = some t → frMatch t = false) := by
  refine ⟨rfl, findFrenchAux_none_iff streams 0, ?_⟩
  intro p
  rw [find_french_audio_stream, findFrenchAux_some_iff streams 0 p]
  constructor
  · rintro ⟨j, s, hp, hg, hf, hmin⟩
    have hj : j = p := by omega
    subst hj
    exact ⟨s, hg, hf, hmin⟩
  · rintro ⟨s, hg, hf, hmin⟩
    exact ⟨p, s, by omega, hg, hf, hmin⟩

theorem find_french_first_match_witness :
    ∃ s, [⟨"audio".data, some "eng".data, none⟩,
          ⟨"audio".data, none, some "VF French".data⟩].get? 1 = some (s : FStream) ∧
      frMatch s = true ∧
      ∀ k t, k < 1 →
        [⟨"audio".data, some "eng".data, none⟩,
         ⟨"audio".data, none, some "VF French".data⟩].get? k = some t →
        frMatch t = false :=
  ((find_french_first_match
    [⟨"audio".data, some "eng".data, none⟩,
     ⟨"audio".data, none, some "VF French".data⟩]).2.2 1).mp (by decide)

/-- C6: Whenever the conversion reaches verification (encoder exited 0, output
exists, input size positive), any duration drift beyond 1.0 second and any
failure to re-probe the output produce only a warning: convert_video still
returns success. -/
theorem verification_advisory (input_size output_size : Nat) (duration : Option ℚ)
    (reprobe : Option (Option ℚ)) (hpos : 0 < input_size) :
    ∃ ws, convert_video_tail true input_size output_size duration reprobe =
        .ok (true, ws) ∧
      (reprobe = none → ws = [VWarning.verifyFailed]) ∧
      (∀ od d, reprobe = some (some od) → duration = some d → od ≠ 0 → d ≠ 0 →
        1 < |od - d| → ws = [VWarning.durationMismatch]) := by
  unfold convert_video_tail
  rw [if_neg (by simp), if_neg (by omega)]
  refine ⟨_, rfl, ?_, ?_⟩
  · rintro rfl; rfl
  · rintro od d rfl rfl hod hd hdrift
    simp [pyTruthy, hod, hd, hdrift]

theorem verification_advisory_witness :
    convert_video_tail true 10 5 (some 100) (some (some 200)) =
      .ok (true, [VWarning.durationMismatch]) := by
  obtain ⟨ws, heq, -, hmm⟩ :=
    verification_advisory 10 5 (some 100) (some (some 200)) (by omega)
  rw [heq, hmm 200 100 rfl rfl (by norm_num) (by norm_num)
    (by rw [show |(200 : ℚ) - 100| = 100 by rw [abs_of_nonneg] <;> norm_num]; norm_num)]

/-- C7: A batch run with skip_existing over a directory whose only supported
file is movie.mkv, with movie_converted.mp4 already in the output directory,
never invokes the per-file conversion (the result is the same for every
conversion oracle) and returns total=1, succeeded=0, failed=0, skipped=1. -/
theorem batch_skip_existing (convert : Str → Bool) :
    convert_batch ["movie.mkv".data] ["movie_converted.mp4".data] true convert =
      ⟨1, 0, 0, 1⟩ := rfl

/-- C8: Supplying the named quality preset "high" resolves the settings to
crf=18 and preset="slow", regardless of any individually supplied CRF or
preset values passed alongside it. -/
theorem quality_preset_precedence (crf0 : Option Nat) (preset0 : Option Str) :
    resolved_settings (some "high".data) crf0 preset0 = .ok (18, "slow".data) := rfl

/-- C9: In the post-encode tail of convert_video (validation, probing and the
encoder all succeeded and the output exists), the size-ratio division has no
guard: a zero-byte input raises ZeroDivisionError instead of returning a
boolean, while a positive input size is safe. -/
theorem size_ratio_zero_division (input_size output_size : Nat) (duration : Option ℚ)
    (reprobe : Option (Option ℚ)) :
    (input_size = 0 →
      convert_video_tail true input_size output_size duration reprobe =
        .error PyError.zeroDivision) ∧
    (0 < input_size →
      ∃ b ws, convert_video_tail true input_size output_size duration reprobe =
        .ok (b, ws)) := by
  constructor
  · rintro rfl
    simp [convert_video_tail]
  · intro h
    unfold convert_video_tail
    rw [if_neg (by simp), if_neg (by omega)]
    exact ⟨true, _, rfl⟩

theorem size_ratio_zero_division_witness :
    convert_video_tail true 0 4 none none = .error PyError.zeroDivision ∧
    ∃ b ws, convert_video_tail true 7 4 none none = Except.ok (b, ws) :=
  ⟨(size_ratio_zero_division 0 4 none none).1 rfl,
   (size_ratio_zero_division 7 4 none none).2 (by omega)⟩

theorem parse_progress_none (line : Str) (dur : Option ℚ)
    (h : searchTime line = none) : parse_progress line dur = none := by
  simp [parse_progress, h]

theorem parse_progress_eq_none_dur (line : Str) (hh mm si fn fl : Nat)
    (h : searchTime line = some (hh, mm, si, fn, fl)) :
    parse_progress line none =
      some ⟨(hh : ℚ) * 3600 + (mm : ℚ) * 60 + decVal si fn fl, fpsOf line,
            (searchFrame line).getD 0, 0, none⟩ := by
  simp only [parse_progress, h]

theorem parse_progress_eq_pos_dur (line : Str) (hh mm si fn fl : Nat) (d : ℚ)
    (h : searchTime line = some (hh, mm, si, fn, fl)) (hd : 0 < d) :
    parse_progress line (some d) =
      some ⟨(hh : ℚ) * 3600 + (mm : ℚ) * 60 + decVal si fn fl, fpsOf line,
            (searchFrame line).getD 0,
            min 100 (((hh : ℚ) * 3600 + (mm : ℚ) * 60 + decVal si fn fl) / d * 100),
            if 0 < fpsOf line then
              some ((d - ((hh : ℚ) * 3600 + (mm : ℚ) * 60 + decVal si fn fl)) / fpsOf line)
            else none⟩ := by
  simp only [parse_progress, h, if_pos hd]

theorem parse_progress_eq_nonpos_dur (line : Str) (hh mm si fn fl : Nat) (d : ℚ)
    (h : searchTime line = some (hh, mm, si, fn, fl)) (hd : ¬0 < d) :
    parse_progress line (some d) =
      some ⟨(hh : ℚ) * 3600 + (mm : ℚ) * 60 + decVal si fn fl, fpsOf line,
            (searchFrame line).getD 0, 0, none⟩ := by
  simp only [parse_progress, h, if_neg hd]


/-- C5: For every status line carrying a HH:MM:SS.ff timestamp, parse_progress
returns a record whose elapsed seconds are 3600*HH + 60*MM + SS.ff; with a
known positive duration, percentage = min(100, 100*elapsed/duration) and
eta = (duration - elapsed)/fps exactly when fps > 0 (absent when fps = 0);
with an unknown or non-positive duration, percentage = 0 and no ETA. On
"frame=  123 fps= 45 time=00:01:05.12 ..." with duration 130 this yields
frame=123, fps=45, elapsed=65.12, percentage=3256/65 (≈50.09) and
eta=1622/1125 (≈1.44). -/
theorem parse_progress_spec :
    (∀ line dur hh mm si fn fl, searchTime line = some (hh, mm, si, fn, fl) →
      ∃ r, parse_progress line dur = some r ∧
        r.current_time = 3600 * (hh : ℚ) + 60 * (mm : ℚ) + ((si : ℚ) + (fn : ℚ) / 10 ^ fl) ∧
        (∀ d, dur = some d → 0 < d →
          r.percentage = min 100 (100 * r.current_time / d) ∧
          (0 < r.fps → r.eta = some ((d - r.current_time) / r.fps)) ∧
          (r.fps = 0 → r.eta = none)) ∧
        ((dur = none ∨ ∃ d, dur = some d ∧ d ≤ 0) →
          r.percentage = 0 ∧ r.eta = none)) ∧
    (∃ r, parse_progress "frame=  123 fps= 45 time=00:01:05.12 bitrate=1024k".data
        (some 130) = some r ∧
      r.frame = 123 ∧ r.fps = 45 ∧ r.current_time = 1628 / 25 ∧
      r.percentage = 3256 / 65 ∧ r.eta = some (1622 / 1125)) := by
  constructor
  · intro line dur hh mm si fn fl h
    cases dur with
    | none =>
      refine ⟨_, parse_progress_eq_none_dur line hh mm si fn fl h, ?_, ?_, ?_⟩
      · show (hh : ℚ) * 3600 + (mm : ℚ) * 60 + decVal si fn fl = _
        rw [decVal]; ring
      · intro d hd; cases hd
      · exact fun _ => ⟨rfl, rfl⟩
    | some d =>
      by_cases hd : 0 < d
      · refine ⟨_, parse_progress_eq_pos_dur line hh mm si fn fl d h hd, ?_, ?_, ?_⟩
        · show (hh : ℚ) * 3600 + (mm : ℚ) * 60 + decVal si fn fl = _
          rw [decVal]; ring
        · intro d2 hd2 hpos
          rw [Option.some.injEq] at hd2
          subst hd2
          refine ⟨?_, ?_, ?_⟩
          · show min 100 (_ / d * 100) = min 100 (100 * _ / d)
            congr 1; ring
          · intro hfps
            have hfps2 : 0 < fpsOf line := hfps
            show (if 0 < fpsOf line then some _ else none) = _
            rw [if_pos hfps2]
          · intro hfps
            have hfps2 : fpsOf line = 0 := hfps
            show (if 0 < fpsOf line then some _ else none) = none
            rw [hfps2, if_neg (lt_irrefl 0)]
        · rintro (h2 | ⟨d2, hd2, hle⟩)
          · cases h2
          · rw [Option.some.injEq] at hd2
            subst hd2
            exact absurd hd (not_lt.mpr hle)
      · refine ⟨_, parse_progress_eq_nonpos_dur line hh mm si fn fl d h hd, ?_, ?_, ?_⟩
        · show (hh : ℚ) * 3600 + (mm : ℚ) * 60 + decVal si fn fl = _
          rw [decVal]; ring
        · intro d2 hd2 hpos
          rw [Option.some.injEq] at hd2
          subst hd2
          exact absurd hpos hd
        · exact fun _ => ⟨rfl, rfl⟩
  · have ht : searchTime "frame=  123 fps= 45 time=00:01:05.12 bitrate=1024k".data =
        some (0, 1, 5, 12, 2) := by decide
    have hf : searchFps "frame=  123 fps= 45 time=00:01:05.12 bitrate=1024k".data =
        some (45, 0, 0) := by decide
    have hfr : searchFrame "frame=  123 fps= 45 time=00:01:05.12 bitrate=1024k".data =
        some 123 := by decide
    have hfps45 : fpsOf "frame=  123 fps= 45 time=00:01:05.12 bitrate=1024k".data = 45 := by
      rw [fpsOf, hf]
      show decVal 45 0 0 = 45
      rw [decVal]; push_cast; norm_num
    have hct : ((0 : Nat) : ℚ) * 3600 + ((1 : Nat) : ℚ) * 60 + decVal 5 12 2 = 1628 / 25 := by
      rw [decVal]; push_cast; norm_num
    have heq2 : parse_progress
        "frame=  123 fps= 45 time=00:01:05.12 bitrate=1024k".data (some 130) =
        some ⟨1628 / 25, 45, 123, 3256 / 65, some (1622 / 1125)⟩ := by
      rw [parse_progress_eq_pos_dur _ 0 1 5 12 2 130 ht (by norm_num), hfps45, hfr, hct,
        if_pos (show (0 : ℚ) < 45 by norm_num)]
      simp only [Option.getD_some, Option.some.injEq, ProgressInfo.mk.injEq]
      refine ⟨trivial, trivial, trivial, ?_, ?_⟩
      · rw [min_eq_right (by norm_num)]; norm_num
      · norm_num
    refine ⟨_, heq2, ?_, ?_, ?_, ?_, ?_⟩ <;> rfl


theorem parse_progress_spec_witness :
    ∃ r, parse_progress "x time=0:2:3.5 y".data none = some r ∧
      r.current_time = 3600 * ((0 : Nat) : ℚ) + 60 * ((2 : Nat) : ℚ) +
        (((3 : Nat) : ℚ) + ((5 : Nat) : ℚ) / 10 ^ (1 : Nat)) ∧
      (∀ d, (none : Option ℚ) = some d → 0 < d →
        r.percentage = min 100 (100 * r.current_time / d) ∧
        (0 < r.fps → r.eta = some ((d - r.current_time) / r.fps)) ∧
        (r.fps = 0 → r.eta = none)) ∧
      (((none : Option ℚ) = none ∨ ∃ d, (none : Option ℚ) = some d ∧ d ≤ 0) →
        r.percentage = 0 ∧ r.eta = none) :=
  parse_progress_spec.1 "x time=0:2:3.5 y".data none 0 2 3 5 1 (by decide)

/-- C10: A status line whose time= field lacks a fractional seconds component
yields no progress record, exactly as a line with no time= field at all: a
record is produced only when the timestamp pattern (digits:digits:digits.digits
after time=) matches somewhere in the line. -/
theorem parse_progress_requires_fraction :
    (∀ line dur, searchTime line = none → parse_progress line dur = none) ∧
    searchTime "frame=  123 fps= 45 time=00:01:05 bitrate=1024k".data = none ∧
    (∀ dur, parse_progress "frame=  123 fps= 45 time=00:01:05 bitrate=1024k".data dur =
      none) ∧
    (∀ dur, parse_progress "frame=  123 fps= 45 bitrate=1024k".data dur = none) :=
  ⟨fun line dur h => parse_progress_none line dur h,
   by decide,
   fun dur => parse_progress_none _ dur (by decide),
   fun dur => parse_progress_none _ dur (by decide)⟩

theorem parse_progress_requires_fraction_witness :
    parse_progress "speed=1.2x".data none = none :=
  parse_progress_requires_fraction.1 _ none (by decide)

/-! ## Segment machinery for command-content claims -/

/-- `a` occurs as a contiguous segment of `b`. -/
def SegOf {α : Type} (a b : List α) : Prop := ∃ p q, b = p ++ (a ++ q)

theorem segOf_self {α : Type} (a q : List α) : SegOf a (a ++ q) := ⟨[], q, rfl⟩

theorem segOf_suffix {α : Type} (a p : List α) : SegOf a (p ++ a) := ⟨p, [], by simp⟩

theorem segOf_refl {α : Type} (a : List α) : SegOf a a := ⟨[], [], by simp⟩

theorem segOf_append_left {α : Type} {a b : List α} (c : List α) (h : SegOf a b) :
    SegOf a (c ++ b) := by
  obtain ⟨p, q, rfl⟩ := h
  exact ⟨c ++ p, q, by simp⟩

theorem segOf_append_right {α : Type} {a b : List α} (c : List α) (h : SegOf a b) :
    SegOf a (b ++ c) := by
  obtain ⟨p, q, rfl⟩ := h
  exact ⟨p, q ++ c, by simp⟩

theorem segOf_trans {α : Type} {a b c : List α} (h1 : SegOf a b) (h2 : SegOf b c) :
    SegOf a c := by
  obtain ⟨p, q, rfl⟩ := h1
  obtain ⟨r, s, rfl⟩ := h2
  exact ⟨r ++ p, q ++ s, by simp⟩

theorem segOf_flatMap {α β : Type} (f : α → List β) {x : α} {l : List α} (h : x ∈ l) :
    SegOf (f x) (l.flatMap f) := by
  induction l with
  | nil => cases h
  | cons c t ih =>
    rcases List.mem_cons.mp h with rfl | h2
    · exact ⟨[], t.flatMap f, by simp⟩
    · exact segOf_append_left (f c) (ih h2)

theorem getD_of_get? {α : Type} {l : List α} {i : Nat} {a : α} (d : α)
    (h : l.get? i = some a) : l.getD i d = a := by
  have : l.getD i d = (l.get? i).getD d := rfl
  rw [this, h]
  rfl

theorem mem_enum_of_get? {α : Type} {l : List α} {i : Nat} {a : α}
    (h : l.get? i = some a) : (i, a) ∈ l.enum := by
  rw [List.mk_mem_enum_iff_getElem?, ← List.get?_eq_getElem?]
  exact h

/-! ## Digit-string facts for flag-exclusivity reasoning -/

theorem natCharsCore_digits : ∀ (fuel n : Nat) (acc : List Char),
    (∀ c ∈ acc, c.isDigit = true) → ∀ c ∈ natCharsCore fuel n acc, c.isDigit = true := by
  intro fuel
  induction fuel with
  | zero => intro n acc hacc c hc; exact hacc c hc
  | succ f ih =>
    intro n acc hacc c hc
    have hacc2 : ∀ c ∈ Nat.digitChar (n % 10) :: acc, c.isDigit = true := by
      intro c2 hc2
      rcases List.mem_cons.mp hc2 with rfl | hc3
      · exact (by decide : ∀ m, m < 10 → (Nat.digitChar m).isDigit = true)
          (n % 10) (Nat.mod_lt _ (by omega))
      · exact hacc c2 hc3
    simp only [natCharsCore] at hc
    split at hc
    · exact hacc2 c hc
    · exact ih (n / 10) _ hacc2 c hc

theorem natChars_digits (n : Nat) : ∀ c ∈ natChars n, c.isDigit = true :=
  natCharsCore_digits (n + 1) n [] (by simp)

theorem natChars_ne_gpu (n : Nat) : natChars n ≠ GPU_ENCODER := by
  intro h
  have hh : 'h' ∈ natChars n := by rw [h]; decide
  exact absurd (natChars_digits n 'h' hh) (by decide)

/-! ## Shape of the elements emitted by the audio and subtitle sections -/

theorem mem_audioSection {x : Str} {a : List FStream} (h : x ∈ audioSection a) :
    x = "-map".data ∨ (∃ i, x = "0:a:".data ++ natChars i) ∨
    x = "-disposition:a:0".data ∨ x = "default".data ∨
    (∃ i, x = "-metadata:s:a:".data ++ natChars i) ∨
    (∃ l, x = "language=".data ++ l) ∨ (∃ t, x = "title=".data ++ t) := by
  unfold audioSection at h
  split at h
  · cases h
  · simp only [List.mem_append] at h
    rcases h with (hA | hD) | hM
    · unfold audioMapArgs at hA
      rw [List.mem_flatMap] at hA
      obtain ⟨i, -, hx⟩ := hA
      rcases List.mem_cons.mp hx with rfl | hx2
      · exact Or.inl rfl
      · rcases List.mem_cons.mp hx2 with rfl | hx3
        · exact Or.inr (Or.inl ⟨i, rfl⟩)
        · cases hx3
    · rcases List.mem_cons.mp hD with rfl | hD2
      · exact Or.inr (Or.inr (Or.inl rfl))
      · rcases List.mem_cons.mp hD2 with rfl | hD3
        · exact Or.inr (Or.inr (Or.inr (Or.inl rfl)))
        · cases hD3
    · unfold audioMetadataArgs at hM
      rw [List.mem_flatMap] at hM
      obtain ⟨p, -, hx⟩ := hM
      rw [List.mem_append] at hx
      rcases hx with hL | hT
      · split at hL
        · cases hL
        · rcases List.mem_cons.mp hL with rfl | hL2
          · exact Or.inr (Or.inr (Or.inr (Or.inr (Or.inl ⟨p.1, rfl⟩))))
          · rcases List.mem_cons.mp hL2 with rfl | hL3
            · exact Or.inr (Or.inr (Or.inr (Or.inr (Or.inr (Or.inl ⟨_, rfl⟩)))))
            · cases hL3
      · split at hT
        · cases hT
        · rcases List.mem_cons.mp hT with rfl | hT2
          · exact Or.inr (Or.inr (Or.inr (Or.inr (Or.inl ⟨p.1, rfl⟩))))
          · rcases List.mem_cons.mp hT2 with rfl | hT3
            · exact Or.inr (Or.inr (Or.inr (Or.inr (Or.inr (Or.inr ⟨_, rfl⟩)))))
            · cases hT3

theorem mem_subtitleSection {x : Str} {inc : Bool} {subs : List FStream}
    (h : x ∈ subtitleSection inc subs) :
    x = "-map".data ∨ (∃ i, x = "0:s:".data ++ natChars i) ∨
    x = "-c:s".data ∨ x = SUBTITLE_CODEC ∨
    x = "-disposition:s:0".data ∨ x = "default".data ∨
    (∃ i, x = "-metadata:s:s:".data ++ natChars i) ∨
    (∃ l, x = "language=".data ++ l) ∨ (∃ t, x = "title=".data ++ t) := by
  unfold subtitleSection at h
  split at h
  · rw [List.mem_flatMap] at h
    obtain ⟨p, -, hx⟩ := h
    simp only [List.mem_append] at hx
    rcases hx with ((h1 | hD) | hL) | hT
    · rcases List.mem_cons.mp h1 with rfl | h2
      · exact Or.inl rfl
      · rcases List.mem_cons.mp h2 with rfl | h3
        · exact Or.inr (Or.inl ⟨p.2, rfl⟩)
        · rcases List.mem_cons.mp h3 with rfl | h4
          · exact Or.inr (Or.inr (Or.inl rfl))
          · rcases List.mem_cons.mp h4 with rfl | h5
            · exact Or.inr (Or.inr (Or.inr (Or.inl rfl)))
            · cases h5
    · split at hD
      · rcases List.mem_cons.mp hD with rfl | h2
        · exact Or.inr (Or.inr (Or.inr (Or.inr (Or.inl rfl))))
        · rcases List.mem_cons.mp h2 with rfl | h3
          · exact Or.inr (Or.inr (Or.inr (Or.inr (Or.inr (Or.inl rfl)))))
          · cases h3
      · cases hD
    · split at hL
      · cases hL
      · rcases List.mem_cons.mp hL with rfl | h2
        · exact Or.inr (Or.inr (Or.inr (Or.inr (Or.inr (Or.inr (Or.inl ⟨p.1, rfl⟩))))))
        · rcases List.mem_cons.mp h2 with rfl | h3
          · exact Or.inr (Or.inr (Or.inr (Or.inr (Or.inr (Or.inr (Or.inr
              (Or.inl ⟨_, rfl⟩)))))))
          · cases h3
    · split at hT
      · cases hT
      · rcases List.mem_cons.mp hT with rfl | h2
        · exact Or.inr (Or.inr (Or.inr (Or.inr (Or.inr (Or.inr (Or.inl ⟨p.1, rfl⟩))))))
        · rcases List.mem_cons.mp h2 with rfl | h3
          · exact Or.inr (Or.inr (Or.inr (Or.inr (Or.inr (Or.inr (Or.inr
              (Or.inr ⟨_, rfl⟩)))))))
          · cases h3
  · cases h

theorem audioSection_flags (a : List FStream) :
    "-preset".data ∉ audioSection a ∧ "-crf".data ∉ audioSection a ∧
    GPU_ENCODER ∉ audioSection a := by
  refine ⟨?_, ?_, ?_⟩ <;>
    (intro h;
     rcases mem_audioSection h with h1 | ⟨i, h1⟩ | h1 | h1 | ⟨i, h1⟩ | ⟨l, h1⟩ | ⟨t, h1⟩ <;>
       simp [GPU_ENCODER] at h1)

theorem subtitleSection_flags (inc : Bool) (subs : List FStream) :
    "-preset".data ∉ subtitleSection inc subs ∧ "-crf".data ∉ subtitleSection inc subs ∧
    GPU_ENCODER ∉ subtitleSection inc subs := by
  refine ⟨?_, ?_, ?_⟩ <;>
    (intro h;
     rcases mem_subtitleSection h with
       h1 | ⟨i, h1⟩ | h1 | h1 | h1 | h1 | ⟨i, h1⟩ | ⟨l, h1⟩ | ⟨t, h1⟩ <;>
       simp [GPU_ENCODER, SUBTITLE_CODEC] at h1)

theorem mem_build_cmd {x : Str} {useGpu includeSubs : Bool} {crf : Nat}
    {preset inp out : Str} {streams : List FStream}
    (h : x ∈ build_ffmpeg_command useGpu includeSubs crf preset inp out streams) :
    x = inp ∨ x = out ∨
    x ∈ (if useGpu then ["-c:v".data, GPU_ENCODER]
         else ["-c:v".data, VIDEO_CODEC, "-preset".data, preset, "-crf".data,
               natChars crf]) ∨
    x ∈ audioSection (get_streams_info streams).2.1 ∨
    x ∈ subtitleSection includeSubs (get_streams_info streams).2.2 ∨
    x ∈ ["ffmpeg".data, "-i".data, "-pix_fmt".data, PIXEL_FORMAT, "-c:a".data,
         AUDIO_CODEC, "-b:a".data, AUDIO_BITRATE, "-ac".data, natChars AUDIO_CHANNELS,
         "-map".data, "0:v:0".data, "-movflags".data, MOVFLAGS, "-map_metadata".data,
         "0".data, "-y".data] := by
  unfold build_ffmpeg_command at h
  simp only [List.mem_append] at h
  rcases h with ((((((((hA | hB) | hP) | hAC) | hV) | hAS) | hSS) | hT) | hOut)
  · simp only [List.mem_cons, List.not_mem_nil, or_false] at hA
    rcases hA with rfl | rfl | rfl
    · exact Or.inr (Or.inr (Or.inr (Or.inr (Or.inr (by decide)))))
    · exact Or.inr (Or.inr (Or.inr (Or.inr (Or.inr (by decide)))))
    · exact Or.inl rfl
  · exact Or.inr (Or.inr (Or.inl hB))
  · simp only [List.mem_cons, List.not_mem_nil, or_false] at hP
    rcases hP with rfl | rfl
    · exact Or.inr (Or.inr (Or.inr (Or.inr (Or.inr (by decide)))))
    · exact Or.inr (Or.inr (Or.inr (Or.inr (Or.inr (by decide)))))
  · simp only [List.mem_cons, List.not_mem_nil, or_false] at hAC
    rcases hAC with rfl | rfl | rfl | rfl | rfl | rfl <;>
      exact Or.inr (Or.inr (Or.inr (Or.inr (Or.inr (by decide)))))
  · split at hV
    · cases hV
    · simp only [List.mem_cons, List.not_mem_nil, or_false] at hV
      rcases hV with rfl | rfl
      · exact Or.inr (Or.inr (Or.inr (Or.inr (Or.inr (by decide)))))
      · exact Or.inr (Or.inr (Or.inr (Or.inr (Or.inr (by decide)))))
  · exact Or.inr (Or.inr (Or.inr (Or.inl hAS)))
  · exact Or.inr (Or.inr (Or.inr (Or.inr (Or.inl hSS))))
  · simp only [List.mem_cons, List.not_mem_nil, or_false] at hT
    rcases hT with rfl | rfl | rfl | rfl | rfl <;>
      exact Or.inr (Or.inr (Or.inr (Or.inr (Or.inr (by decide)))))
  · simp only [List.mem_cons, List.not_mem_nil, or_false] at hOut
    exact Or.inr (Or.inl hOut)

/-- C4: For every input and configuration, the built command contains either
the hardware-accelerated encoder identifier or the software codec with the
preset and CRF flags, never both: with GPU acceleration every element of the
command other than the two paths differs from "-preset" and "-crf"; without
it, every element other than the paths and the user-supplied preset value
differs from the accelerated encoder identifier. -/
theorem video_encoder_exclusive (useGpu includeSubs : Bool) (crf : Nat)
    (preset inp out : Str) (streams : List FStream) :
    (useGpu = true →
      GPU_ENCODER ∈ build_ffmpeg_command useGpu includeSubs crf preset inp out streams ∧
      (∀ x ∈ build_ffmpeg_command useGpu includeSubs crf preset inp out streams,
        x = inp ∨ x = out ∨ (x ≠ "-preset".data ∧ x ≠ "-crf".data))) ∧
    (useGpu = false →
      (VIDEO_CODEC ∈ build_ffmpeg_command useGpu includeSubs crf preset inp out streams ∧
       "-preset".data ∈ build_ffmpeg_command useGpu includeSubs crf preset inp out streams ∧
       "-crf".data ∈ build_ffmpeg_command useGpu includeSubs crf preset inp out streams) ∧
      (∀ x ∈ build_ffmpeg_command useGpu includeSubs crf preset inp out streams,
        x = inp ∨ x = out ∨ x = preset ∨ x ≠ GPU_ENCODER)) := by
  constructor
  · rintro rfl
    constructor
    · unfold build_ffmpeg_command
      simp
    · intro x hx
      rcases mem_build_cmd hx with rfl | rfl | hB | hAS | hSS | hFix
      · exact Or.inl rfl
      · exact Or.inr (Or.inl rfl)
      · rw [if_pos rfl] at hB
        simp only [List.mem_cons, List.not_mem_nil, or_false] at hB
        rcases hB with rfl | rfl
        · exact Or.inr (Or.inr (by decide))
        · exact Or.inr (Or.inr (by decide))
      · exact Or.inr (Or.inr ⟨fun he => (audioSection_flags _).1 (he ▸ hAS),
          fun he => (audioSection_flags _).2.1 (he ▸ hAS)⟩)
      · exact Or.inr (Or.inr ⟨fun he => (subtitleSection_flags _ _).1 (he ▸ hSS),
          fun he => (subtitleSection_flags _ _).2.1 (he ▸ hSS)⟩)
      · simp only [List.mem_cons, List.not_mem_nil, or_false] at hFix
        rcases hFix with rfl | rfl | rfl | rfl | rfl | rfl | rfl | rfl | rfl | rfl |
          rfl | rfl | rfl | rfl | rfl | rfl | rfl <;>
          exact Or.inr (Or.inr (by decide))
  · rintro rfl
    constructor
    · refine ⟨?_, ?_, ?_⟩ <;> (unfold build_ffmpeg_command; simp)
    · intro x hx
      rcases mem_build_cmd hx with rfl | rfl | hB | hAS | hSS | hFix
      · exact Or.inl rfl
      · exact Or.inr (Or.inl rfl)
      · rw [if_neg (by simp)] at hB
        simp only [List.mem_cons, List.not_mem_nil, or_false] at hB
        rcases hB with rfl | rfl | rfl | rfl | rfl | rfl
        · exact Or.inr (Or.inr (Or.inr (by decide)))
        · exact Or.inr (Or.inr (Or.inr (by decide)))
        · exact Or.inr (Or.inr (Or.inr (by decide)))
        · exact Or.inr (Or.inr (Or.inl rfl))
        · exact Or.inr (Or.inr (Or.inr (by decide)))
        · exact Or.inr (Or.inr (Or.inr (natChars_ne_gpu crf)))
      · exact Or.inr (Or.inr (Or.inr (fun he => (audioSection_flags _).2.2 (he ▸ hAS))))
      · exact Or.inr (Or.inr (Or.inr
          (fun he => (subtitleSection_flags _ _).2.2 (he ▸ hSS))))
      · simp only [List.mem_cons, List.not_mem_nil, or_false] at hFix
        rcases hFix with rfl | rfl | rfl | rfl | rfl | rfl | rfl | rfl | rfl | rfl |
          rfl | rfl | rfl | rfl | rfl | rfl | rfl <;>
          exact Or.inr (Or.inr (Or.inr (by decide)))

theorem video_encoder_exclusive_witness :
    GPU_ENCODER ∈ build_ffmpeg_command true true 23 "medium".data "a.mkv".data
      "b.mp4".data [] :=
  ((video_encoder_exclusive true true 23 "medium".data "a.mkv".data "b.mp4".data
    []).1 rfl).1

theorem segOf_audioSection (useGpu includeSubs : Bool) (crf : Nat)
    (preset inp out : Str) (streams : List FStream) :
    SegOf (audioSection (get_streams_info streams).2.1)
      (build_ffmpeg_command useGpu includeSubs crf preset inp out streams) := by
  unfold build_ffmpeg_command
  exact segOf_append_right _ (segOf_append_right _ (segOf_append_right _
    (segOf_suffix _ _)))

theorem audioSection_eq (a : List FStream) (hne : a ≠ []) :
    audioSection a =
      (audioMapArgs (get_audio_mapping a) ++
        ["-disposition:a:0".data, "default".data]) ++
      audioMetadataArgs a (get_audio_mapping a) := by
  unfold audioSection
  rw [if_neg (by simpa [List.isEmpty_iff] using hne)]

/-- C3: Whenever the audio group is non-empty, the built command maps every
audio stream (not only the preferred one) in the planned order (the whole
`audioMapArgs` block is a contiguous segment of the command), marks output
track 0 as the default disposition, and emits each mapped stream's language
and title tags (when present) keyed by the output position. On audio streams
eng, fra the mapping is [1, 0] and the command carries `-disposition:a:0
default` and `-metadata:s:a:0 language=fra`. -/
theorem audio_mapping_in_command :
    (∀ (useGpu includeSubs : Bool) (crf : Nat) (preset inp out : Str)
        (streams : List FStream),
      (get_streams_info streams).2.1 ≠ [] →
      (SegOf (audioMapArgs (get_audio_mapping (get_streams_info streams).2.1))
          (build_ffmpeg_command useGpu includeSubs crf preset inp out streams) ∧
       (∀ j, j < (get_streams_info streams).2.1.length →
          j ∈ get_audio_mapping (get_streams_info streams).2.1) ∧
       SegOf ["-disposition:a:0".data, "default".data]
          (build_ffmpeg_command useGpu includeSubs crf preset inp out streams) ∧
       (∀ oi ii s l,
          (get_audio_mapping (get_streams_info streams).2.1).get? oi = some ii →
          (get_streams_info streams).2.1.get? ii = some s →
          s.language = some l → l ≠ [] →
          SegOf ["-metadata:s:a:".data ++ natChars oi, "language=".data ++ l]
            (build_ffmpeg_command useGpu includeSubs crf preset inp out streams)) ∧
       (∀ oi ii s t,
          (get_audio_mapping (get_streams_info streams).2.1).get? oi = some ii →
          (get_streams_info streams).2.1.get? ii = some s →
          s.title = some t → t ≠ [] →
          SegOf ["-metadata:s:a:".data ++ natChars oi, "title=".data ++ t]
            (build_ffmpeg_command useGpu includeSubs crf preset inp out streams)))) ∧
    (get_audio_mapping [⟨"audio".data, some "eng".data, none⟩,
        ⟨"audio".data, some "fra".data, none⟩] = [1, 0] ∧
     build_ffmpeg_command false true 23 "medium".data "in.mkv".data "out.mp4".data
        [⟨"video".data, none, none⟩, ⟨"audio".data, some "eng".data, none⟩,
         ⟨"audio".data, some "fra".data, none⟩] =
      ["ffmpeg".data, "-i".data, "in.mkv".data, "-c:v".data, "libx264".data,
       "-preset".data, "medium".data, "-crf".data, "23".data, "-pix_fmt".data,
       "yuv420p".data, "-c:a".data, "aac".data, "-b:a".data, "192k".data,
       "-ac".data, "2".data, "-map".data, "0:v:0".data, "-map".data, "0:a:1".data,
       "-map".data, "0:a:0".data, "-disposition:a:0".data, "default".data,
       "-metadata:s:a:0".data, "language=fra".data, "-metadata:s:a:1".data,
       "language=eng".data, "-movflags".data, "+faststart".data,
       "-map_metadata".data, "0".data, "-y".data, "out.mp4".data]) := by
  constructor
  · intro useGpu includeSubs crf preset inp out streams hne
    have hAS := segOf_audioSection useGpu includeSubs crf preset inp out streams
    have hsec := audioSection_eq (get_streams_info streams).2.1 hne
    have hMeta : SegOf
        (audioMetadataArgs (get_streams_info streams).2.1
          (get_audio_mapping (get_streams_info streams).2.1))
        (build_ffmpeg_command useGpu includeSubs crf preset inp out streams) := by
      refine segOf_trans ?_ hAS
      rw [hsec]
      exact segOf_suffix _ _
    refine ⟨?_, ?_, ?_, ?_, ?_⟩
    · refine segOf_trans ?_ hAS
      rw [hsec]
      exact segOf_append_right _ (segOf_append_right _ (segOf_refl _))
    · intro j hj
      exact (get_audio_mapping_perm _).mem_iff.mpr (List.mem_range.mpr hj)
    · refine segOf_trans ?_ hAS
      rw [hsec]
      exact segOf_append_right _ (segOf_suffix _ _)
    · intro oi ii s l hoi hii hl hlne
      refine segOf_trans ?_ hMeta
      unfold audioMetadataArgs
      refine segOf_trans ?_ (segOf_flatMap _ (mem_enum_of_get? hoi))
      dsimp only
      rw [getD_of_get? emptyStream hii, hl]
      simp only [Option.getD_some]
      rw [if_neg (by simpa [List.isEmpty_iff] using hlne)]
      exact segOf_append_right _ (segOf_refl _)
    · intro oi ii s t hoi hii ht htne
      refine segOf_trans ?_ hMeta
      unfold audioMetadataArgs
      refine segOf_trans ?_ (segOf_flatMap _ (mem_enum_of_get? hoi))
      dsimp only
      rw [getD_of_get? emptyStream hii, ht]
      simp only [Option.getD_some]
      rw [show (if List.isEmpty t = true then ([] : List Str)
          else ["-metadata:s:a:".data ++ natChars oi, "title=".data ++ t]) =
          ["-metadata:s:a:".data ++ natChars oi, "title=".data ++ t] from
        if_neg (by simpa [List.isEmpty_iff] using htne)]
      exact segOf_suffix _ _
  · exact ⟨by decide, by decide⟩

theorem audio_mapping_in_command_witness :
    SegOf ["-metadata:s:a:".data ++ natChars 0, "language=".data ++ "fra".data]
      (build_ffmpeg_command false true 23 "medium".data "in.mkv".data "out.mp4".data
        [⟨"video".data, none, none⟩, ⟨"audio".data, some "eng".data, none⟩,
         ⟨"audio".data, some "fra".data, none⟩]) :=
  (audio_mapping_in_command.1 false true 23 "medium".data "in.mkv".data "out.mp4".data
      [⟨"video".data, none, none⟩, ⟨"audio".data, some "eng".data, none⟩,
       ⟨"audio".data, some "fra".data, none⟩] (by decide)).2.2.2.1 0 1
    ⟨"audio".data, some "fra".data, none⟩ "fra".data (by decide) (by decide) rfl
    (by decide)
